import Mathlib

/-!
Verification of the `istio-test` repository (Go), component `internal/metadata`.

This file shallowly embeds the metadata-fetch retry engine
(`Client.FetchMetadata`), the health classification and aggregation logic
(`checkMetadataService`, `determineOverallHealth`,
`EnhancedHealthCheckHandler`) and the metadata request handler
(`MetadataHandler`) of `internal/metadata/metadata.go`, and proves or
refutes the specified properties about them.

Modelling conventions:
- `time.Duration` (an int64 count of nanoseconds) is modelled as `Int`;
  int64 wraparound is not modelled (irrelevant in the exercised ranges).
- the `float64` retry multiplier is modelled as an exact rational; the Go
  conversion `time.Duration(float64(d) * m)` truncates toward zero, which
  is `Int.div` of the exact rational product.
- network I/O is abstracted by an oracle `Nat → AttemptOutcome` giving the
  outcome of each attempt, and context cancellation by `Nat → Bool` giving
  the state of `ctx.Done()` at the top of each loop iteration.
- log calls (`observability.InfoWithContext` etc.) are side-effect free in
  the model and are dropped.
-/

namespace IstioTest

/-- The retry-relevant configuration of `metadata.Client`
(`metadata.go` lines 28-34).  The embedded `http.Client` itself is
abstracted by the attempt oracle. -/
structure Client where
  maxRetries : Int
  /-- Field `baseRetryDelay`, nanoseconds. -/
  baseRetryDelay : Int
  /-- Field `maxRetryDelay`, nanoseconds. -/
  maxRetryDelay : Int
  /-- Field `retryMultiplier`, a `float64` modelled as an exact rational. -/
  retryMultiplier : ℚ
deriving Repr

/-- Outcome of one loop iteration's interaction with the outside world:
`http.NewRequestWithContext` fails, `httpClient.Do` fails at transport
level, or an HTTP response arrives with a status code, a body, and a flag
telling whether `io.ReadAll` on the body fails. -/
inductive AttemptOutcome where
  | reqError
  | transportError (msg : String)
  | response (status : Nat) (body : String) (readErr : Bool)
deriving Repr, DecidableEq

/-- The last recorded cause (`lastErr`) inside `FetchMetadata`:
either a transport error (line 77) or a bad-status error (line 94). -/
inductive FetchCause where
  | transport (msg : String)
  | badStatus (status : Nat) (body : String)
deriving Repr, DecidableEq

/-- The failure modes of `Client.FetchMetadata`: the error returns at
lines 64 (context cancelled), 70 (request creation), 113 (body read) and
87/108/123 (`failed after %d attempts`, wrapping the optional last cause). -/
inductive FetchFailure where
  | contextCancelled
  | requestCreation
  | bodyRead
  | exhausted (attempts : Int) (last : Option FetchCause)
deriving Repr, DecidableEq

instance : DecidableEq (Except FetchFailure String) := fun a b =>
  match a, b with
  | .ok x, .ok y => if h : x = y then .isTrue (by rw [h]) else .isFalse (by simp [h])
  | .ok _, .error _ => .isFalse (by simp)
  | .error _, .ok _ => .isFalse (by simp)
  | .error x, .error y => if h : x = y then .isTrue (by rw [h]) else .isFalse (by simp [h])

/-- Observable behaviour of one `FetchMetadata` call: its return value,
how many network calls (`httpClient.Do`) it made, and the durations
passed to `time.Sleep`, in order. -/
structure FetchTrace where
  result : Except FetchFailure String
  calls : Nat
  sleeps : List Int
deriving Repr, DecidableEq

/-- Predicate `(resp.StatusCode >= 500 && resp.StatusCode < 600) || resp.StatusCode ==
http.StatusTooManyRequests` (`metadata.go` line 97). -/
def retryableStatus (s : Nat) : Bool :=
  (500 ≤ s && s < 600) || s == 429

/-- Go's `time.Duration(float64(d) * m)`: the exact rational product truncated
toward zero (Go's float-to-integer conversion). -/
def truncMul (d : Int) (m : ℚ) : Int :=
  Int.tdiv (d * m.num) (m.den : Int)

/-- One backoff update (`metadata.go` lines 81-84 and 101-104): multiply the
current delay by the multiplier, then clamp to `maxRetryDelay`. -/
def stepDelay (c : Client) (d : Int) : Int :=
  let grown := truncMul d c.retryMultiplier
  if grown > c.maxRetryDelay then c.maxRetryDelay else grown

/-- The loop body of `Client.FetchMetadata` (`metadata.go` lines 60-121).
`fuel` is the number of loop iterations the guard `attempt < c.maxRetries`
still admits, so `fuel = 0` is loop exit (line 123) and, inside an
iteration, `attempt < c.maxRetries - 1` (lines 78 and 98) is `0 < fuel`
for the remaining fuel.  `attempt` indexes the oracles. -/
def fetchLoop (c : Client) (ctxDone : Nat → Bool) (oracle : Nat → AttemptOutcome) :
    Nat → Nat → Int → Option FetchCause → FetchTrace
  | 0, _, _, lastErr =>
    ⟨.error (.exhausted c.maxRetries lastErr), 0, []⟩
  | fuel + 1, attempt, retryDelay, _ =>
    if ctxDone attempt then
      ⟨.error .contextCancelled, 0, []⟩
    else
      match oracle attempt with
      | .reqError => ⟨.error .requestCreation, 0, []⟩
      | .transportError msg =>
        if 0 < fuel then
          let rest := fetchLoop c ctxDone oracle fuel (attempt + 1)
            (stepDelay c retryDelay) (some (.transport msg))
          ⟨rest.result, rest.calls + 1, retryDelay :: rest.sleeps⟩
        else
          ⟨.error (.exhausted c.maxRetries (some (.transport msg))), 1, []⟩
      | .response status body readErr =>
        if status ≠ 200 then
          if retryableStatus status ∧ 0 < fuel then
            let rest := fetchLoop c ctxDone oracle fuel (attempt + 1)
              (stepDelay c retryDelay) (some (.badStatus status body))
            ⟨rest.result, rest.calls + 1, retryDelay :: rest.sleeps⟩
          else
            ⟨.error (.exhausted c.maxRetries (some (.badStatus status body))), 1, []⟩
        else if readErr then
          ⟨.error .bodyRead, 1, []⟩
        else
          ⟨.ok body, 1, []⟩

/-- Function `Client.FetchMetadata` (`metadata.go` lines 56-124): run the retry loop
from `attempt = 0` with `retryDelay = c.baseRetryDelay` and `lastErr = nil`.
When `maxRetries ≤ 0` the loop body never runs. -/
def fetchMetadata (c : Client) (ctxDone : Nat → Bool) (oracle : Nat → AttemptOutcome) :
    FetchTrace :=
  fetchLoop c ctxDone oracle c.maxRetries.toNat 0 c.baseRetryDelay none

/-- A context that is never cancelled. -/
def neverDone : Nat → Bool := fun _ => false

/-- A context that is already cancelled before the call. -/
def alreadyDone : Nat → Bool := fun _ => true

/-- The backoff sequence started from an arbitrary current delay `d`:
`delayFrom c d 0 = d` and each later value is the previous one grown and
clamped.  Used for the retry-loop invariant. -/
def delayFrom (c : Client) (d : Int) : Nat → Int
  | 0 => d
  | k + 1 => stepDelay c (delayFrom c d k)

/-- The delay slept before retry attempt `k+1` when every attempt fails
retryably: `delaySeq c 0 = baseRetryDelay` (the first sleep is not
clamped), and each later sleep is the previous one grown and clamped. -/
def delaySeq (c : Client) : Nat → Int :=
  delayFrom c c.baseRetryDelay

/-! ## Health model (`metadata.go` lines 126-295)

Go's `HealthStatus` is a string type (`type HealthStatus string`), so a
`HealthCheck` may in principle carry any string; the three named constants
are `HealthStatusHealthy`, `HealthStatusDegraded`, `HealthStatusUnhealthy`. -/

/-- Constant `HealthStatusHealthy = "healthy"`. -/
def healthyS : String := "healthy"

/-- Constant `HealthStatusDegraded = "degraded"`. -/
def degradedS : String := "degraded"

/-- Constant `HealthStatusUnhealthy = "unhealthy"`. -/
def unhealthyS : String := "unhealthy"

/-- Structure `metadata.HealthCheck` (lines 145-150).  `Duration` (a rendered
`time.Duration`) is modelled by the underlying nanosecond count and
`LastChecked` (a `time.Time`) by an integer instant. -/
structure HealthCheck where
  status : String
  message : String
  duration : Int
  lastChecked : Int
deriving Repr, DecidableEq

/-- The counting loop of `determineOverallHealth` (lines 268-281): fold
over the checks, incrementing the (healthy, degraded, unhealthy) counter
matched by the check's status; any other status hits no `case` and leaves
the counters unchanged.  Go map iteration order is arbitrary, so the map
is modelled as an association list. -/
def countStep (acc : Nat × Nat × Nat) (p : String × HealthCheck) : Nat × Nat × Nat :=
  if p.2.status = healthyS then (acc.1 + 1, acc.2.1, acc.2.2)
  else if p.2.status = degradedS then (acc.1, acc.2.1 + 1, acc.2.2)
  else if p.2.status = unhealthyS then (acc.1, acc.2.1, acc.2.2 + 1)
  else acc

/-- See `countStep`: the loop of `determineOverallHealth` as a fold. -/
def countHealth (checks : List (String × HealthCheck)) : Nat × Nat × Nat :=
  checks.foldl countStep (0, 0, 0)

/-- Function `determineOverallHealth` (lines 267-295): any unhealthy check makes the
overall status unhealthy; otherwise any degraded check makes it degraded;
otherwise it is healthy. -/
def determineOverallHealth (checks : List (String × HealthCheck)) : String :=
  let counts := countHealth checks
  if counts.2.2 > 0 then unhealthyS
  else if counts.2.1 > 0 then degradedS
  else healthyS

/-- Constant `1 * time.Second` in nanoseconds, the slow-response threshold of
`checkMetadataService` (line 249). -/
def slowThresholdNs : Int := 1000000000

/-- The classification logic of `checkMetadataService` (lines 221-264).
The I/O is abstracted: `fetchErr` is the error (message) returned by
`FetchMetadata` under the 3-second child context (`none` on success),
`deadlineExceeded` is whether `checkCtx.Err() == context.DeadlineExceeded`
afterwards, `durationNs` the elapsed time of the probe and `now` the
`time.Now().UTC()` instant recorded in the check. -/
def checkMetadataService (fetchErr : Option String) (deadlineExceeded : Bool)
    (durationNs : Int) (now : Int) : HealthCheck :=
  match fetchErr with
  | some e =>
    if deadlineExceeded then
      ⟨unhealthyS, "Metadata service timeout", durationNs, now⟩
    else
      ⟨degradedS, "Metadata service error: " ++ e, durationNs, now⟩
  | none =>
    if durationNs > slowThresholdNs then
      ⟨degradedS, "Metadata service responding slowly", durationNs, now⟩
    else
      ⟨healthyS, "Metadata service is responsive", durationNs, now⟩

/-- The hard-coded `http_server` check of `EnhancedHealthCheckHandler`
(lines 182-187). -/
def httpServerCheck (durationNs now : Int) : HealthCheck :=
  ⟨healthyS, "HTTP server is responding", durationNs, now⟩

/-- The checks map built by `EnhancedHealthCheckHandler` (lines 177-187):
the `metadata_service` probe result plus the hard-coded `http_server`
check. -/
def enhancedChecks (metadataCheck : HealthCheck) (serverDur serverNow : Int) :
    List (String × HealthCheck) :=
  [("metadata_service", metadataCheck), ("http_server", httpServerCheck serverDur serverNow)]

/-- The HTTP status code written by `EnhancedHealthCheckHandler` for a
given overall status (lines 202-208). -/
def overallStatusCode (status : String) : Nat :=
  if status = healthyS then 200
  else if status = degradedS then 200
  else 503

/-- The overall status computed by `EnhancedHealthCheckHandler`
(line 190). -/
def enhancedOverall (metadataCheck : HealthCheck) (serverDur serverNow : Int) : String :=
  determineOverallHealth (enhancedChecks metadataCheck serverDur serverNow)

/-! ## Metadata request handler (`metadata.go` lines 317-372) -/

/-- The response written by `MetadataHandler`: either a `200` JSON object
`{metadataType: value}` or a plain-text error with an HTTP status code. -/
inductive HandlerResponse where
  | success (metadataType value : String)
  | httpError (code : Nat) (body : String)
deriving Repr, DecidableEq

/-- Go's `strings.Split(s, "/")` on the character list of `s`: splits at
every `'/'` and always returns at least one (possibly empty) segment;
`strings.Split("", "/")` is `[""]`. -/
def splitOnSlash : List Char → List (List Char)
  | [] => [[]]
  | c :: cs =>
    let rest := splitOnSlash cs
    if c = '/' then [] :: rest
    else (c :: rest.headD []) :: rest.tail

/-- The body of `MetadataHandler` (lines 329-371) from the extracted
`metadataType` path segment on.  Path parsing (lines 321-327) is upstream
of the modelled claims; `fetchResult` abstracts the injected
`fetchMetadataFunc` call.  `parts.getLastD []` under the positive-length
guard is Go's `instanceZoneParts[len(instanceZoneParts)-1]`. -/
def metadataHandler (metadataType : String) (fetchResult : Except String String) :
    HandlerResponse :=
  if metadataType ≠ "cluster-name" ∧ metadataType ≠ "cluster-location" ∧
      metadataType ≠ "instance-zone" then
    .httpError 400 "Unknown metadata type"
  else
    match fetchResult with
    | .error _ => .httpError 502 "Failed to fetch metadata"
    | .ok metadata =>
      if metadataType = "instance-zone" then
        let parts := splitOnSlash metadata.data
        if parts.length > 0 then
          .success metadataType (String.mk (parts.getLastD []))
        else
          .httpError 500 "Unexpected format for instance-zone metadata"
      else
        .success metadataType metadata

/-! ## Concrete instances used by witnesses and counterexamples -/

/-- A typical client: 3 retries, 100ns base delay, 2000ns cap, multiplier 2.
(The repository's default uses the same shape with millisecond values.) -/
def cW : Client := ⟨3, 100, 2000, 2⟩

/-- A client whose delay growth hits duration truncation: base 3ns,
cap 10ns, multiplier 1.5. -/
def cTrunc : Client := ⟨3, 3, 10, mkRat 3 2⟩

/-- An oracle whose every attempt fails at transport level. -/
def boomOracle : Nat → AttemptOutcome := fun _ => .transportError "boom"

/-- An oracle whose every attempt yields an HTTP response with the given
status and body, the body always readable. -/
def statusOracle (s : Nat) (b : String) : Nat → AttemptOutcome :=
  fun _ => .response s b false

/-! ## Lemmas about the retry loop -/

lemma delayFrom_succ (c : Client) (d : Int) (k : Nat) :
    delayFrom c d (k + 1) = delayFrom c (stepDelay c d) k := by
  induction k with
  | zero => rfl
  | succ k ih =>
    show stepDelay c (delayFrom c d (k + 1)) = stepDelay c (delayFrom c (stepDelay c d) k)
    rw [ih]

lemma range_map_delayFrom (c : Client) (d : Int) (f : Nat) (hf : 0 < f) :
    (List.range f).map (delayFrom c d) =
      d :: (List.range (f - 1)).map (delayFrom c (stepDelay c d)) := by
  obtain ⟨g, rfl⟩ : ∃ g, f = g + 1 := ⟨f - 1, by omega⟩
  rw [List.range_succ_eq_map]
  simp only [List.map_cons, List.map_map, Nat.add_sub_cancel]
  refine congrArg₂ _ rfl ?_
  refine List.map_congr_left fun k _ => ?_
  exact delayFrom_succ c d k

/-- Loop invariant for a fetch whose every attempt fails at transport
level: the loop consumes all its fuel, makes one call per iteration,
sleeps the backoff sequence started at the current delay, and ends with
the terminal error wrapping the last transport failure. -/
lemma fetchLoop_allTransport (c : Client) (msg : Nat → String) :
    ∀ fuel, 0 < fuel → ∀ attempt d e,
      fetchLoop c neverDone (fun k => .transportError (msg k)) fuel attempt d e =
        ⟨.error (.exhausted c.maxRetries (some (.transport (msg (attempt + fuel - 1))))),
         fuel, (List.range (fuel - 1)).map (delayFrom c d)⟩ := by
  intro fuel
  induction fuel with
  | zero => intro h; exact absurd h (by omega)
  | succ f ih =>
    intro _ attempt d e
    by_cases hf : 0 < f
    · have hrec := ih hf (attempt + 1) (stepDelay c d) (some (.transport (msg attempt)))
      have harith : attempt + 1 + f - 1 = attempt + (f + 1) - 1 := by omega
      simp only [fetchLoop, neverDone, hf, if_true, if_false, Bool.false_eq_true, hrec,
        harith, Nat.add_sub_cancel, FetchTrace.mk.injEq]
      refine ⟨trivial, trivial, ?_⟩
      exact (range_map_delayFrom c d f hf).symm
    · have hf0 : f = 0 := by omega
      subst hf0
      simp [fetchLoop, neverDone]

/-- CLAIM C1 (amended).  For every retry configuration with
`maxRetries = n ≥ 1` and a fetch whose every attempt fails at transport
level, `Client.FetchMetadata` performs exactly `n` attempts (network
calls) and returns the terminal `failed after n attempts` error wrapping
the last transport cause; the delays slept are, in order,
`delaySeq c 0, …, delaySeq c (n-2)`, i.e. the first sleep is
`baseRetryDelay` un-clamped and each later sleep is the previous one
multiplied by `retryMultiplier` (truncated to integer nanoseconds) and
then clamped to `maxRetryDelay`. -/
theorem fetchMetadata_allTransport (c : Client) (msg : Nat → String) (n : Nat)
    (hn : 0 < n) (hmr : c.maxRetries = (n : Int)) :
    fetchMetadata c neverDone (fun k => .transportError (msg k)) =
      ⟨.error (.exhausted c.maxRetries (some (.transport (msg (n - 1))))), n,
       (List.range (n - 1)).map (delaySeq c)⟩ := by
  unfold fetchMetadata
  have ht : c.maxRetries.toNat = n := by omega
  rw [ht]
  have h := fetchLoop_allTransport c msg n hn 0 c.baseRetryDelay none
  simpa [delaySeq] using h

/-- Witness for C1 (amended): three transport failures with base 100ns,
multiplier 2, cap 2000ns sleep 100ns then 200ns. -/
theorem fetchMetadata_allTransport_witness :
    fetchMetadata cW neverDone (fun k => .transportError ((fun _ => "boom") k)) =
      ⟨.error (.exhausted 3 (some (.transport "boom"))), 3, [100, 200]⟩ :=
  (fetchMetadata_allTransport cW (fun _ => "boom") 3 (by decide) (by decide)).trans
    (by decide)

/-- Counterexample to C1 as stated: with `baseRetryDelay = 3`ns,
`maxRetryDelay = 10`ns, `retryMultiplier = 1.5` and `maxRetries = 3`
(a configuration satisfying every `RetryPolicy` invariant), the delay
slept before attempt 2 is `4`ns — `time.Duration(float64(3) * 1.5)`
truncates `4.5` — whereas the claim's formula
`min(baseRetryDelay * retryMultiplier^(2-1), maxRetryDelay)` is `4.5`. -/
theorem fetchMetadata_delayFormula_counterexample :
    (fetchMetadata cTrunc neverDone boomOracle).sleeps = [3, 4] ∧
      min ((3 : ℚ) * mkRat 3 2 ^ (2 - 1)) 10 ≠ ((4 : Int) : ℚ) := by
  refine ⟨by decide, ?_⟩
  rw [Rat.mkRat_eq_div]
  norm_num

/-- Loop invariant for a retryable bad status: every iteration makes one
call, so all remaining fuel is consumed. -/
lemma fetchLoop_retryStatus_calls (c : Client) (s : Nat) (body : String)
    (hs : retryableStatus s = true) (h200 : s ≠ 200) :
    ∀ fuel attempt d e,
      (fetchLoop c neverDone (statusOracle s body) fuel attempt d e).calls = fuel := by
  intro fuel
  induction fuel with
  | zero => intro attempt d e; rfl
  | succ f ih =>
    intro attempt d e
    by_cases hf : 0 < f
    · simp [fetchLoop, neverDone, statusOracle, h200, hs, hf, ih (attempt + 1)]
    · have hf0 : f = 0 := by omega
      subst hf0
      simp [fetchLoop, neverDone, statusOracle, h200, hs]

/-- CLAIM C2.  For every `maxRetries ≥ 1`, an attempt receiving a non-2xx
HTTP status that is neither in `[500,600)` nor `429` makes the fetch fail
immediately with the terminal error after exactly 1 network call and no
sleeps; and the statuses in `[500,600)` together with `429` are exactly
the retried non-success statuses: with such a status on every attempt, the
whole retry budget is consumed. -/
theorem fetchMetadata_nonRetryableStatus (c : Client) (hc : 1 ≤ c.maxRetries)
    (s : Nat) (body : String) (h2xx : ¬(200 ≤ s ∧ s < 300)) :
    (retryableStatus s = false →
      fetchMetadata c neverDone (statusOracle s body) =
        ⟨.error (.exhausted c.maxRetries (some (.badStatus s body))), 1, []⟩) ∧
    (retryableStatus s = true →
      (fetchMetadata c neverDone (statusOracle s body)).calls = c.maxRetries.toNat) := by
  have h200 : s ≠ 200 := by omega
  constructor
  · intro hr
    obtain ⟨f, hf⟩ : ∃ f, c.maxRetries.toNat = f + 1 := ⟨c.maxRetries.toNat - 1, by omega⟩
    unfold fetchMetadata
    rw [hf]
    simp [fetchLoop, neverDone, statusOracle, h200, hr]
  · intro hr
    exact fetchLoop_retryStatus_calls c s body hr h200 c.maxRetries.toNat 0 _ _

/-- Witness for C2: a 404 response is terminal after one attempt even with
3 retries budgeted. -/
theorem fetchMetadata_nonRetryableStatus_witness :
    fetchMetadata cW neverDone (statusOracle 404 "nf") =
      ⟨.error (.exhausted 3 (some (.badStatus 404 "nf"))), 1, []⟩ :=
  (fetchMetadata_nonRetryableStatus cW (by decide) 404 "nf" (by decide)).1 (by decide)

/-- CLAIM C3 (amended).  Any loop iteration that receives an HTTP response
with status exactly `200` and whose body read succeeds returns the body as
the success value immediately: one network call, no sleeps, no further
attempts.  (A non-200 2xx status is NOT treated as success, see the
counterexample.) -/
theorem fetchLoop_status200 (c : Client) (ctxDone : Nat → Bool)
    (oracle : Nat → AttemptOutcome) (fuel attempt : Nat) (d : Int)
    (e : Option FetchCause) (body : String)
    (hctx : ctxDone attempt = false) (hor : oracle attempt = .response 200 body false) :
    fetchLoop c ctxDone oracle (fuel + 1) attempt d e = ⟨.ok body, 1, []⟩ := by
  simp [fetchLoop, hctx, hor]

/-- Witness for C3 (amended): a 200 response on the first attempt returns
its body at once. -/
theorem fetchLoop_status200_witness :
    fetchLoop cW neverDone (statusOracle 200 "ok") 3 0 100 none = ⟨.ok "ok", 1, []⟩ :=
  fetchLoop_status200 cW neverDone (statusOracle 200 "ok") 2 0 100 none "ok"
    (by decide) (by decide)

/-- Counterexample to C3 as stated: the code tests
`resp.StatusCode != http.StatusOK`, so a `201` (2xx) response is treated
as a terminal non-retryable failure, not as success. -/
theorem fetchMetadata_status201_counterexample :
    (fetchMetadata cW neverDone (statusOracle 201 "created")).result =
      .error (.exhausted 3 (some (.badStatus 201 "created"))) ∧
    (fetchMetadata cW neverDone (statusOracle 201 "created")).result ≠ .ok "created" := by
  exact ⟨by decide, by decide⟩

/-- CLAIM C4.  With `maxRetries ≥ 1`, a context that is already cancelled
when `FetchMetadata` is invoked makes the call fail immediately with the
context-cancellation error: zero network calls, zero sleeps, so no
retryable attempt is consumed. -/
theorem fetchMetadata_ctxCancelled (c : Client) (hc : 1 ≤ c.maxRetries)
    (ctxDone : Nat → Bool) (oracle : Nat → AttemptOutcome) (h0 : ctxDone 0 = true) :
    fetchMetadata c ctxDone oracle = ⟨.error .contextCancelled, 0, []⟩ := by
  obtain ⟨f, hf⟩ : ∃ f, c.maxRetries.toNat = f + 1 := ⟨c.maxRetries.toNat - 1, by omega⟩
  unfold fetchMetadata
  rw [hf]
  simp [fetchLoop, h0]

/-- Witness for C4: an already-cancelled context aborts with zero calls. -/
theorem fetchMetadata_ctxCancelled_witness :
    fetchMetadata cW alreadyDone (statusOracle 200 "ok") =
      ⟨.error .contextCancelled, 0, []⟩ :=
  fetchMetadata_ctxCancelled cW (by decide) alreadyDone (statusOracle 200 "ok") rfl

/-- CLAIM C9.  With `maxRetries ≤ 0` the retry loop body is never entered:
`FetchMetadata` returns the terminal `failed after N attempts` error
wrapping a nil last cause, with zero network calls and zero sleeps. -/
theorem fetchMetadata_nonPositiveRetries (c : Client) (h : c.maxRetries ≤ 0)
    (ctxDone : Nat → Bool) (oracle : Nat → AttemptOutcome) :
    fetchMetadata c ctxDone oracle =
      ⟨.error (.exhausted c.maxRetries none), 0, []⟩ := by
  unfold fetchMetadata
  have ht : c.maxRetries.toNat = 0 := by omega
  rw [ht]
  rfl

/-- Witness for C9: a zero-retry client fails with no calls. -/
theorem fetchMetadata_nonPositiveRetries_witness :
    fetchMetadata ⟨0, 100, 2000, 2⟩ neverDone (statusOracle 200 "ok") =
      ⟨.error (.exhausted 0 none), 0, []⟩ :=
  fetchMetadata_nonPositiveRetries ⟨0, 100, 2000, 2⟩ (by decide) neverDone
    (statusOracle 200 "ok")

/-! ## Lemmas about health aggregation -/

lemma countHealth_foldl (l : List (String × HealthCheck)) (a : Nat × Nat × Nat) :
    l.foldl countStep a =
      (a.1 + l.countP (fun p => p.2.status == healthyS),
       a.2.1 + l.countP (fun p => p.2.status == degradedS),
       a.2.2 + l.countP (fun p => p.2.status == unhealthyS)) := by
  induction l generalizing a with
  | nil => simp
  | cons x xs ih =>
    rw [List.foldl_cons, ih]
    simp only [List.countP_cons, countStep]
    have hdh : degradedS ≠ healthyS := by decide
    have huh : unhealthyS ≠ healthyS := by decide
    have hud : unhealthyS ≠ degradedS := by decide
    by_cases h1 : x.2.status = healthyS
    · simp [h1, hdh.symm, huh.symm, Prod.ext_iff]
      omega
    · by_cases h2 : x.2.status = degradedS
      · simp [h1, h2, hdh, hud.symm, Prod.ext_iff]
        omega
      · by_cases h3 : x.2.status = unhealthyS
        · simp [h1, h2, h3, huh, hud, Prod.ext_iff]
          omega
        · simp [h1, h2, h3]

lemma countHealth_eq (l : List (String × HealthCheck)) :
    countHealth l =
      (l.countP (fun p => p.2.status == healthyS),
       l.countP (fun p => p.2.status == degradedS),
       l.countP (fun p => p.2.status == unhealthyS)) := by
  simpa using countHealth_foldl l (0, 0, 0)

lemma determineOverallHealth_eq (l : List (String × HealthCheck)) :
    determineOverallHealth l =
      if 0 < l.countP (fun p => p.2.status == unhealthyS) then unhealthyS
      else if 0 < l.countP (fun p => p.2.status == degradedS) then degradedS
      else healthyS := by
  unfold determineOverallHealth
  rw [countHealth_eq]

/-- CLAIM C5.  `determineOverallHealth` is the priority reduction the spec
states: any unhealthy check makes the overall status unhealthy; otherwise
any degraded check makes it degraded; otherwise it is healthy.  It is a
pure function of the multiset of statuses: permuting or re-keying the
checks never changes the result. -/
theorem determineOverallHealth_spec :
    (∀ l : List (String × HealthCheck),
      (∃ p ∈ l, p.2.status = unhealthyS) → determineOverallHealth l = unhealthyS) ∧
    (∀ l : List (String × HealthCheck),
      (∀ p ∈ l, p.2.status ≠ unhealthyS) → (∃ p ∈ l, p.2.status = degradedS) →
        determineOverallHealth l = degradedS) ∧
    (∀ l : List (String × HealthCheck),
      (∀ p ∈ l, p.2.status ≠ unhealthyS) → (∀ p ∈ l, p.2.status ≠ degradedS) →
        determineOverallHealth l = healthyS) ∧
    (∀ l₁ l₂ : List (String × HealthCheck),
      (l₁.map (fun p => p.2.status)).Perm (l₂.map (fun p => p.2.status)) →
        determineOverallHealth l₁ = determineOverallHealth l₂) := by
  have hcount : ∀ (l : List (String × HealthCheck)) (s : String),
      l.countP (fun p => p.2.status == s) =
        (l.map (fun p => p.2.status)).countP (fun t => t == s) := by
    intro l s
    rw [List.countP_map]
    rfl
  refine ⟨?_, ?_, ?_, ?_⟩
  · intro l ⟨p, hp, hps⟩
    rw [determineOverallHealth_eq]
    have : 0 < l.countP (fun p => p.2.status == unhealthyS) :=
      List.countP_pos_iff.mpr ⟨p, hp, by simpa using hps⟩
    simp [this]
  · intro l hu ⟨p, hp, hps⟩
    rw [determineOverallHealth_eq]
    have h0 : l.countP (fun p => p.2.status == unhealthyS) = 0 :=
      List.countP_eq_zero.mpr fun q hq => by simpa using hu q hq
    have h1 : 0 < l.countP (fun p => p.2.status == degradedS) :=
      List.countP_pos_iff.mpr ⟨p, hp, by simpa using hps⟩
    simp [h0, h1]
  · intro l hu hd
    rw [determineOverallHealth_eq]
    have h0 : l.countP (fun p => p.2.status == unhealthyS) = 0 :=
      List.countP_eq_zero.mpr fun q hq => by simpa using hu q hq
    have h1 : l.countP (fun p => p.2.status == degradedS) = 0 :=
      List.countP_eq_zero.mpr fun q hq => by simpa using hd q hq
    simp [h0, h1]
  · intro l₁ l₂ hperm
    rw [determineOverallHealth_eq, determineOverallHealth_eq,
      hcount l₁ unhealthyS, hcount l₂ unhealthyS, hcount l₁ degradedS, hcount l₂ degradedS,
      hperm.countP_eq, hperm.countP_eq]

/-- Witness for C5, the spec's example:
`{a: healthy, b: degraded, c: unhealthy}` reduces to `unhealthy`. -/
theorem determineOverallHealth_spec_witness :
    determineOverallHealth
      [("a", ⟨healthyS, "", 0, 0⟩), ("b", ⟨degradedS, "", 0, 0⟩),
       ("c", ⟨unhealthyS, "", 0, 0⟩)] = unhealthyS :=
  determineOverallHealth_spec.1 _ ⟨("c", ⟨unhealthyS, "", 0, 0⟩), by decide, rfl⟩

/-- CLAIM C10.  A check whose status string is none of the three enum
values is counted in no bucket, so a map with only unrecognized statuses
(or an empty map) has all counters zero and yields overall `healthy`. -/
theorem determineOverallHealth_unknownStatuses (l : List (String × HealthCheck))
    (h : ∀ p ∈ l, p.2.status ≠ healthyS ∧ p.2.status ≠ degradedS ∧
      p.2.status ≠ unhealthyS) :
    countHealth l = (0, 0, 0) ∧ determineOverallHealth l = healthyS := by
  have h0 : l.countP (fun p => p.2.status == healthyS) = 0 :=
    List.countP_eq_zero.mpr fun q hq => by simpa using (h q hq).1
  have h1 : l.countP (fun p => p.2.status == degradedS) = 0 :=
    List.countP_eq_zero.mpr fun q hq => by simpa using (h q hq).2.1
  have h2 : l.countP (fun p => p.2.status == unhealthyS) = 0 :=
    List.countP_eq_zero.mpr fun q hq => by simpa using (h q hq).2.2
  refine ⟨?_, ?_⟩
  · rw [countHealth_eq, h0, h1, h2]
  · rw [determineOverallHealth_eq, h1, h2]
    simp

/-- Witness for C10: a single check with the unrecognized status
`"unknown"` (and, a fortiori, the empty map) yields overall `healthy`. -/
theorem determineOverallHealth_unknownStatuses_witness :
    countHealth [("x", ⟨"unknown", "", 0, 0⟩)] = (0, 0, 0) ∧
      determineOverallHealth [("x", ⟨"unknown", "", 0, 0⟩)] = healthyS :=
  determineOverallHealth_unknownStatuses [("x", ⟨"unknown", "", 0, 0⟩)] (by decide)

/-- CLAIM C6.  `checkMetadataService` classifies each probe outcome into
exactly one status: fetch failure with the child deadline exceeded is
`unhealthy` with message "Metadata service timeout"; any other fetch
failure is `degraded` with a message including the underlying error; a
success slower than 1 second is `degraded` with message "Metadata service
responding slowly"; otherwise `healthy` — and every branch records the
elapsed duration and the check timestamp. -/
theorem checkMetadataService_spec (e : String) (fe : Option String) (dl : Bool)
    (dur now : Int) :
    checkMetadataService (some e) true dur now =
      ⟨unhealthyS, "Metadata service timeout", dur, now⟩ ∧
    checkMetadataService (some e) false dur now =
      ⟨degradedS, "Metadata service error: " ++ e, dur, now⟩ ∧
    checkMetadataService none dl dur now =
      (if dur > slowThresholdNs then
        ⟨degradedS, "Metadata service responding slowly", dur, now⟩
      else ⟨healthyS, "Metadata service is responsive", dur, now⟩) ∧
    (checkMetadataService fe dl dur now).duration = dur ∧
    (checkMetadataService fe dl dur now).lastChecked = now := by
  refine ⟨rfl, rfl, rfl, ?_, ?_⟩ <;>
    · cases fe <;> simp [checkMetadataService] <;> split <;> rfl

/-- CLAIM C7.  The enhanced health handler writes HTTP status 200 for
overall `healthy`, 200 for `degraded` and 503 for `unhealthy`; it always
includes an `http_server` check hard-coded to `healthy` alongside the
`metadata_service` check, so the overall status is a function of the
`metadata_service` check's status alone. -/
theorem enhancedHealthHandler_spec (mc : HealthCheck) (sdur snow : Int) :
    overallStatusCode healthyS = 200 ∧
    overallStatusCode degradedS = 200 ∧
    overallStatusCode unhealthyS = 503 ∧
    ("http_server", httpServerCheck sdur snow) ∈ enhancedChecks mc sdur snow ∧
    (httpServerCheck sdur snow).status = healthyS ∧
    enhancedOverall mc sdur snow =
      (if mc.status = unhealthyS then unhealthyS
       else if mc.status = degradedS then degradedS
       else healthyS) := by
  refine ⟨by decide, by decide, by decide, by simp [enhancedChecks], rfl, ?_⟩
  have hhd : healthyS ≠ degradedS := by decide
  have hhu : healthyS ≠ unhealthyS := by decide
  have hdu : degradedS ≠ unhealthyS := by decide
  unfold enhancedOverall determineOverallHealth
  simp only [enhancedChecks, httpServerCheck, countHealth, List.foldl_cons,
    List.foldl_nil, countStep]
  by_cases h1 : mc.status = unhealthyS
  · simp [h1, hhu.symm, hdu.symm, hhd, hhu, hdu]
  · by_cases h2 : mc.status = degradedS
    · simp [h1, h2, hhd.symm, hhd, hhu, hdu]
    · by_cases h3 : mc.status = healthyS
      · simp [h1, h2, h3, hhd, hhu, hdu]
      · simp [h1, h2, h3, hhd, hhu, hdu]

/-! ## Lemmas about the metadata handler's instance-zone transform -/

lemma splitOnSlash_ne_nil (l : List Char) : splitOnSlash l ≠ [] := by
  cases l with
  | nil => simp [splitOnSlash]
  | cons c cs =>
    simp only [splitOnSlash]
    split <;> simp

lemma splitOnSlash_noSlash (b : List Char) (hb : '/' ∉ b) : splitOnSlash b = [b] := by
  induction b with
  | nil => rfl
  | cons c cs ih =>
    have hc : c ≠ '/' := fun h => hb (h ▸ List.mem_cons_self c cs)
    have hcs : '/' ∉ cs := fun h => hb (List.mem_cons_of_mem c h)
    simp [splitOnSlash, hc, ih hcs]

lemma splitOnSlash_tail_ne_nil (l : List Char) (h : '/' ∈ l) :
    (splitOnSlash l).tail ≠ [] := by
  induction l with
  | nil => simp at h
  | cons c cs ih =>
    simp only [splitOnSlash]
    by_cases hc : c = '/'
    · simp [hc, splitOnSlash_ne_nil cs]
    · have hcs : '/' ∈ cs := by
        rcases List.mem_cons.mp h with h' | h'
        · exact absurd h'.symm hc
        · exact h'
      simp [hc, ih hcs]

lemma getLastD_irrel (t : List α) (ht : t ≠ []) (d e : α) :
    t.getLastD d = t.getLastD e := by
  cases t with
  | nil => exact absurd rfl ht
  | cons x xs => rw [List.getLastD_cons, List.getLastD_cons]

/-- The last segment of `strings.Split(a ++ "/" ++ b, "/")` is `b`
whenever `b` itself contains no slash. -/
lemma splitOnSlash_lastSegment (a b : List Char) (hb : '/' ∉ b) :
    (splitOnSlash (a ++ '/' :: b)).getLastD [] = b := by
  induction a with
  | nil =>
    show ([] :: splitOnSlash b).getLastD [] = b
    rw [List.getLastD_cons, splitOnSlash_noSlash b hb, List.getLastD_cons]
    rfl
  | cons c a ih =>
    have hmem : '/' ∈ a ++ '/' :: b := List.mem_append_right a (List.mem_cons_self _ _)
    have hne := splitOnSlash_ne_nil (a ++ '/' :: b)
    have htail := splitOnSlash_tail_ne_nil (a ++ '/' :: b) hmem
    show (splitOnSlash (c :: (a ++ '/' :: b))).getLastD [] = b
    simp only [splitOnSlash]
    by_cases hc : c = '/'
    · rw [if_pos hc, List.getLastD_cons]
      exact ih
    · obtain ⟨rh, rt, hrt⟩ : ∃ rh rt, splitOnSlash (a ++ '/' :: b) = rh :: rt := by
        cases hsp : splitOnSlash (a ++ '/' :: b) with
        | nil => exact absurd hsp hne
        | cons rh rt => exact ⟨rh, rt, rfl⟩
      have hrtne : rt ≠ [] := by
        rw [hrt] at htail
        simpa using htail
      have hlast : rt.getLastD rh = b := by
        rw [hrt, List.getLastD_cons] at ih
        exact ih
      rw [if_neg hc, hrt]
      simp only [List.tail_cons, List.headD_cons]
      rw [List.getLastD_cons, getLastD_irrel rt hrtne _ rh, hlast]

/-- CLAIM C8 (amended).  When the metadata type is `instance-zone` and the
fetch succeeds, the handler responds 200 with the final slash-delimited
segment of the raw value (for a value `a ++ "/" ++ b` with slash-free `b`,
that segment is `b`); an empty raw value yields 200 with the empty string,
and the `500 Unexpected format` branch is unreachable because
`strings.Split` always returns at least one segment. -/
theorem metadataHandler_instanceZone (s : String) (a b : List Char)
    (hb : '/' ∉ b) (r : Except String String) :
    metadataHandler "instance-zone" (.ok s) =
      .success "instance-zone" (String.mk ((splitOnSlash s.data).getLastD [])) ∧
    metadataHandler "instance-zone" (.ok "") = .success "instance-zone" "" ∧
    metadataHandler "instance-zone" r ≠
      .httpError 500 "Unexpected format for instance-zone metadata" ∧
    (splitOnSlash (a ++ '/' :: b)).getLastD [] = b := by
  refine ⟨?_, by decide, ?_, splitOnSlash_lastSegment a b hb⟩
  · have hne0 := splitOnSlash_ne_nil s.data
    simp [metadataHandler, List.length_pos.mpr hne0]
  · cases r with
    | error msg => simp [metadataHandler]
    | ok v =>
      have hne := splitOnSlash_ne_nil v.data
      simp [metadataHandler, List.length_pos.mpr hne]

/-- Witness for C8 (amended): the spec's own example, upstream value
`projects/123/zones/us-central1-a` maps to `us-central1-a`. -/
theorem metadataHandler_instanceZone_witness :
    metadataHandler "instance-zone" (.ok "projects/123/zones/us-central1-a") =
      .success "instance-zone" "us-central1-a" :=
  ((metadataHandler_instanceZone "projects/123/zones/us-central1-a" [] ['x']
    (by decide) (.ok "")).1).trans (by decide)

/-- Counterexample to C8 as stated: an empty raw instance-zone value does
NOT produce the `500 Unexpected format` response; `strings.Split("", "/")`
is `[""]`, so the handler responds 200 with the empty string. -/
theorem metadataHandler_emptyZone_counterexample :
    metadataHandler "instance-zone" (.ok "") = .success "instance-zone" "" ∧
    metadataHandler "instance-zone" (.ok "") ≠
      .httpError 500 "Unexpected format for instance-zone metadata" :=
  ⟨by decide, by decide⟩

end IstioTest
